import Mathlib

/-!
Verification of the gonfire/oauth2 authorization-server engine.

The Go sources are shallowly embedded:
* strings are modelled as `List Char` where character-level structure matters
  (scope parsing, JSON marshalling, bearer challenge headers) and as Lean
  `String` where only equality is used (identifiers, signatures, URIs);
* the in-memory credential stores (Go maps) are association lists with
  overwrite-on-insert semantics;
* `time.Time` is a `Nat` instant; `ExpiresAt.Before(time.Now())` becomes
  `expiresAt < now`;
* the HMAC token codec (an external package, `hmacsha` / `HS256Token`) is
  abstracted to its observable outcome: a presented token string either fails
  to parse or yields a signature, and `MustGenerate` is an oracle supplying
  the generated token's string form and signature.
-/

namespace OAuth2

/-- Go strings viewed at character level. -/
abbrev Str := List Char

/-- Whitespace recognised by Go's `unicode.IsSpace` on the characters relevant
here (ASCII whitespace plus the two Latin-1 space characters). -/
def isSpaceChar (c : Char) : Bool :=
  c == ' ' || c == '\t' || c == '\n' || c == '\x0b' || c == '\x0c' ||
    c == '\r' || c == '\x85' || c == '\xa0'

/-- Go `strings.Split(s, " ")`: the chunks of `s` around every space. -/
def splitOnSpace : Str → List Str
  | [] => [[]]
  | c :: rest =>
    if c == ' ' then
      [] :: splitOnSpace rest
    else
      match splitOnSpace rest with
      | [] => [[c]]
      | hd :: tl => (c :: hd) :: tl

/-- Go `strings.TrimSpace`, left half: drop leading whitespace. -/
def trimLeft (l : Str) : Str := l.dropWhile isSpaceChar

/-- Go `strings.TrimSpace`, right half: drop trailing whitespace. -/
def trimRight (l : Str) : Str := (l.reverse.dropWhile isSpaceChar).reverse

/-- Go `strings.TrimSpace`: drop leading and trailing whitespace. -/
def trimSpace (l : Str) : Str := trimRight (trimLeft l)

/-- Function `ParseScope` from request.go: split on single spaces, trim each item,
keep the non-empty items in order. -/
def parseScope (s : Str) : List Str :=
  ((splitOnSpace s).map trimSpace).filter (fun t => !t.isEmpty)

/-- Go `strings.Join(s, " ")`, the body of `Scope.String`. -/
def joinSpace : List Str → Str
  | [] => []
  | [x] => x
  | x :: y :: rest => x ++ ' ' :: joinSpace (y :: rest)

/-- Method `Scope.Contains` from request.go (generic in the token representation). -/
def sContains {α} [DecidableEq α] (s : List α) (x : α) : Bool :=
  s.any (fun i => i == x)

/-- Method `Scope.Includes` from request.go: every token of `other` is contained in
the receiver. -/
def sIncludes {α} [DecidableEq α] (s other : List α) : Bool :=
  other.all (fun i => sContains s i)

/-- Modelled from the spec: `Scope.Empty` is called by the refresh-token
handlers but its body is not among the provided sources; the spec lists
`Empty() -> bool` on ScopeSet, the test for "no scope requested". -/
def sEmpty {α} (s : List α) : Bool := s.isEmpty

/-- Method `Scope.MarshalJSON` from request.go: the bytes of `Scope.String`,
with no quoting added. -/
def marshalJSONScope (s : List Str) : Str := joinSpace s

/-- Hex digit, as accepted inside a JSON `\u` escape. -/
def isHexDigit (c : Char) : Bool :=
  ('0' ≤ c && c ≤ '9') || ('a' ≤ c && c ≤ 'f') || ('A' ≤ c && c ≤ 'F')

/-- Single-character JSON escapes. -/
def isSimpleEscape (c : Char) : Bool :=
  c == '"' || c == '\\' || c == '/' || c == 'b' || c == 'f' ||
    c == 'n' || c == 'r' || c == 't'

/-- Checks that `l` consists of valid JSON string content followed by the
closing quotation mark, with nothing after it. -/
def jsonStringTail : Str → Bool
  | [] => false
  | '"' :: rest => rest.isEmpty
  | '\\' :: 'u' :: h1 :: h2 :: h3 :: h4 :: rest =>
    isHexDigit h1 && isHexDigit h2 && isHexDigit h3 && isHexDigit h4 &&
      jsonStringTail rest
  | '\\' :: 'u' :: _ => false
  | '\\' :: e :: rest => isSimpleEscape e && jsonStringTail rest
  | '\\' :: [] => false
  | c :: rest => decide (0x20 ≤ c.val) && jsonStringTail rest

/-- Whether `l` is a complete, valid JSON string literal (RFC 8259 section 7). -/
def isJSONStringLit (l : Str) : Bool :=
  match l with
  | [] => false
  | c :: rest => c == '"' && jsonStringTail rest

end OAuth2

namespace OAuth2

/-- The closed set of OAuth2 error codes used by the modelled handlers
(error.go / the 256dpi error package). -/
inductive ErrName where
  | invalidRequest
  | invalidClient
  | invalidGrant
  | invalidScope
  | unauthorizedClient
  | unsupportedGrantType
  | unsupportedResponseType
  | accessDenied
  | serverError
  | temporarilyUnavailable
deriving DecidableEq, Repr

/-- An OAuth2 protocol error: code plus human description.  (The `state`
echo is always `NoState` on the token-endpoint paths modelled here and is
omitted.) -/
structure OErr where
  name : ErrName
  desc : String
deriving DecidableEq, Repr

/-- Method `GrantType.Known` from request.go: the four registered grant types. -/
def knownGrantType (g : String) : Bool :=
  g == "password" || g == "client_credentials" ||
    g == "authorization_code" || g == "refresh_token"

/-- The observable outcome of `MustGenerate`: the freshly generated token's
external string form and its signature (the store key).  Generation is
random, so the pair enters the model as an oracle argument. -/
structure GenToken where
  str : String
  sig : String
deriving DecidableEq, Repr

/-- One access-token/refresh-token generation pair, as drawn by
`issueTokens`. -/
structure Gen where
  access : GenToken
  refresh : GenToken
deriving DecidableEq, Repr

/-- Go map lookup `m[k]` with comma-ok. -/
def lookupKV {α} (m : List (String × α)) (k : String) : Option α :=
  (m.find? (fun kv => kv.1 == k)).map (fun kv => kv.2)

/-- Go map assignment `m[k] = v` (overwrites any previous binding). -/
def insertKV {α} (m : List (String × α)) (k : String) (v : α) :
    List (String × α) :=
  (k, v) :: m.filter (fun kv => kv.1 != k)

/-- Go `delete(m, k)`. -/
def eraseKV {α} (m : List (String × α)) (k : String) : List (String × α) :=
  m.filter (fun kv => kv.1 != k)

end OAuth2

namespace Server

open OAuth2

/-- Type `server.Entity`: a client or resource owner. -/
structure Entity where
  secret : String
  redirectURI : String
  confidential : Bool
deriving DecidableEq, Repr

/-- Type `server.Credential`: a stored access token, refresh token or
authorization code.  `code` is the parent authorization-code signature
(empty when the credential was not derived from a code). -/
structure Credential where
  clientID : String
  username : String
  expiresAt : Nat
  scope : List String
  redirectURI : String
  code : String
  used : Bool
deriving DecidableEq, Repr

/-- The mutable part of `server.Server`. -/
structure ServerState where
  clients : List (String × Entity)
  users : List (String × Entity)
  accessTokens : List (String × Credential)
  refreshTokens : List (String × Credential)
  authorizationCodes : List (String × Credential)
deriving DecidableEq, Repr

/-- Type `server.Config` (lifespans in seconds; the secret and key length live
inside the abstracted token codec). -/
structure Config where
  allowedScope : List String
  accessTokenLifespan : Nat
  refreshTokenLifespan : Nat
  authorizationCodeLifespan : Nat
deriving DecidableEq, Repr

/-- An `oauth2.TokenRequest` as consumed by the token endpoint.  The
presented `code` and `refresh_token` strings appear through the outcome of
`ParseHS256Token`: `none` when malformed, otherwise the signature. -/
structure TokenRequest where
  grantType : String
  scope : List String
  clientID : String
  clientSecret : String
  username : String
  password : String
  codeSig : Option String
  refreshSig : Option String
  redirectURI : String
deriving DecidableEq, Repr

/-- An `oauth2.TokenResponse` as produced by `issueTokens` (token type is
always bearer; `refreshToken = none` models the field left empty). -/
structure TokenResponse where
  accessToken : String
  expiresIn : Nat
  scope : List String
  refreshToken : Option String
deriving DecidableEq, Repr

/-- Outcome of a token-endpoint handler: a JSON token response, a written
protocol error, no response written (dead branch of the grant switch), or a
nil-pointer dereference. -/
inductive Result where
  | success (r : TokenResponse)
  | failure (e : OErr)
  | empty
  | crash
deriving DecidableEq, Repr

/-- The access token string of a successful result. -/
def Result.getAccessToken : Result → Option String
  | .success r => some r.accessToken
  | _ => none

/-- The granted scope of a successful result. -/
def Result.getScope : Result → Option (List String)
  | .success r => some r.scope
  | _ => none

/-- Whether a result is a token response. -/
def Result.isSuccess : Result → Bool
  | .success _ => true
  | _ => false

/-- Method `Server.issueTokens`: mint an access token, optionally a refresh token,
store both with `code` as parent-code back-reference, and build the
response. -/
def issueTokens (cfg : Config) (now : Nat) (gen : Gen) (st : ServerState)
    (issueRefreshToken : Bool) (scope : List String)
    (clientID username code : String) : TokenResponse × ServerState :=
  let r : TokenResponse :=
    { accessToken := gen.access.str
      expiresIn := cfg.accessTokenLifespan
      scope := scope
      refreshToken := if issueRefreshToken then some gen.refresh.str else none }
  let st :=
    { st with
      accessTokens :=
        insertKV st.accessTokens gen.access.sig
          ⟨clientID, username, now + cfg.accessTokenLifespan, scope, "", code,
            false⟩ }
  let st :=
    if issueRefreshToken then
      { st with
        refreshTokens :=
          insertKV st.refreshTokens gen.refresh.sig
            ⟨clientID, username, now + cfg.refreshTokenLifespan, scope, "",
              code, false⟩ }
    else st
  (r, st)

/-- Method `Server.handleResourceOwnerPasswordCredentialsGrant`. -/
def handlePasswordGrant (cfg : Config) (now : Nat) (gen : Gen)
    (st : ServerState) (rq : TokenRequest) : Result × ServerState :=
  match lookupKV st.users rq.username with
  | none => (.failure ⟨.accessDenied, ""⟩, st)
  | some owner =>
    if owner.secret ≠ rq.password then (.failure ⟨.accessDenied, ""⟩, st)
    else if !(sIncludes cfg.allowedScope rq.scope) then
      (.failure ⟨.invalidScope, ""⟩, st)
    else
      let (r, st) := issueTokens cfg now gen st true rq.scope rq.clientID
        rq.username ""
      (.success r, st)

/-- Method `Server.handleClientCredentialsGrant`.  `s.Clients[rq.ClientID]` is
dereferenced without a comma-ok check, hence `crash` when the client is
absent (the endpoint guarantees presence before dispatching). -/
def handleClientCredentialsGrant (cfg : Config) (now : Nat) (gen : Gen)
    (st : ServerState) (rq : TokenRequest) : Result × ServerState :=
  match lookupKV st.clients rq.clientID with
  | none => (.crash, st)
  | some client =>
    if !client.confidential then (.failure ⟨.invalidClient, "unknown client"⟩, st)
    else if !(sIncludes cfg.allowedScope rq.scope) then
      (.failure ⟨.invalidScope, ""⟩, st)
    else
      let (r, st) := issueTokens cfg now gen st true rq.scope rq.clientID "" ""
      (.success r, st)

/-- Method `Server.handleAuthorizationCodeGrant`: parse the code, look it up by
signature, run the replay cascade when it is already used, validate expiry,
ownership and redirect URI, issue tokens carrying the code's scope with the
signature as parent code, and mark the code used. -/
def handleAuthorizationCodeGrant (cfg : Config) (now : Nat) (gen : Gen)
    (st : ServerState) (rq : TokenRequest) : Result × ServerState :=
  match rq.codeSig with
  | none => (.failure ⟨.invalidRequest, "malformed token"⟩, st)
  | some sig =>
    match lookupKV st.authorizationCodes sig with
    | none => (.failure ⟨.invalidGrant, "unknown authorization code"⟩, st)
    | some stored =>
      if stored.used then
        let st :=
          { st with
            accessTokens := st.accessTokens.filter (fun kv => kv.2.code != sig)
            refreshTokens :=
              st.refreshTokens.filter (fun kv => kv.2.code != sig) }
        (.failure ⟨.invalidGrant, "unknown authorization code"⟩, st)
      else if stored.expiresAt < now then
        (.failure ⟨.invalidGrant, "expired authorization code"⟩, st)
      else if stored.clientID ≠ rq.clientID then
        (.failure ⟨.invalidGrant, "invalid authorization code ownership"⟩, st)
      else if stored.redirectURI ≠ rq.redirectURI then
        (.failure ⟨.invalidGrant, "changed redirect uri"⟩, st)
      else
        let (r, st) := issueTokens cfg now gen st true stored.scope rq.clientID
          stored.username sig
        let st :=
          { st with
            authorizationCodes :=
              insertKV st.authorizationCodes sig { stored with used := true } }
        (.success r, st)

/-- Method `Server.handleRefreshTokenGrant`: parse the token, look it up, validate
expiry and ownership, inherit the stored scope when none is requested,
validate scope inclusion, issue new tokens and delete the consumed refresh
token. -/
def handleRefreshTokenGrant (cfg : Config) (now : Nat) (gen : Gen)
    (st : ServerState) (rq : TokenRequest) : Result × ServerState :=
  match rq.refreshSig with
  | none => (.failure ⟨.invalidRequest, "malformed token"⟩, st)
  | some sig =>
    match lookupKV st.refreshTokens sig with
    | none => (.failure ⟨.invalidGrant, "unknown refresh token"⟩, st)
    | some stored =>
      if stored.expiresAt < now then
        (.failure ⟨.invalidGrant, "expired refresh token"⟩, st)
      else if stored.clientID ≠ rq.clientID then
        (.failure ⟨.invalidGrant, "invalid refresh token ownership"⟩, st)
      else
        let scope := if sEmpty rq.scope then stored.scope else rq.scope
        if !(sIncludes stored.scope scope) then
          (.failure ⟨.invalidScope, "scope exceeds the originally granted scope"⟩,
            st)
        else
          let (r, st) := issueTokens cfg now gen st true scope rq.clientID
            stored.username ""
          let st := { st with refreshTokens := eraseKV st.refreshTokens sig }
          (.success r, st)

/-- Method `Server.tokenEndpoint`: grant-type check, client lookup, client
authentication for confidential clients, then dispatch. -/
def tokenEndpoint (cfg : Config) (now : Nat) (gen : Gen) (st : ServerState)
    (rq : TokenRequest) : Result × ServerState :=
  if !(knownGrantType rq.grantType) then
    (.failure ⟨.invalidRequest, "unknown grant type"⟩, st)
  else
    match lookupKV st.clients rq.clientID with
    | none => (.failure ⟨.invalidClient, "unknown client"⟩, st)
    | some client =>
      if client.confidential && client.secret ≠ rq.clientSecret then
        (.failure ⟨.invalidClient, "unknown client"⟩, st)
      else if rq.grantType == "password" then
        handlePasswordGrant cfg now gen st rq
      else if rq.grantType == "client_credentials" then
        handleClientCredentialsGrant cfg now gen st rq
      else if rq.grantType == "authorization_code" then
        handleAuthorizationCodeGrant cfg now gen st rq
      else if rq.grantType == "refresh_token" then
        handleRefreshTokenGrant cfg now gen st rq
      else (.empty, st)

/-- An `oauth2.AuthorizationRequest` as consumed by the authorization
endpoint after parsing. -/
structure AuthRequest where
  responseType : String
  scope : List String
  clientID : String
  redirectURI : String
  state : String
deriving DecidableEq, Repr

/-- Outcome of an authorization-endpoint grant handler: a token response
delivered by redirect, or an error delivered by redirect (with the
fragment flag). -/
inductive AuthResult where
  | tokenRedirect (r : TokenResponse) (uri state : String)
  | errorRedirect (e : OErr) (uri state : String) (useFragment : Bool)
deriving DecidableEq, Repr

/-- Method `Server.handleImplicitGrant`: scope check, resource-owner check, then
`issueTokens` with `issueRefreshToken = false`, delivered via fragment
redirect. -/
def handleImplicitGrant (cfg : Config) (now : Nat) (gen : Gen)
    (st : ServerState) (username password : String) (rq : AuthRequest) :
    AuthResult × ServerState :=
  if !(sIncludes cfg.allowedScope rq.scope) then
    (.errorRedirect ⟨.invalidScope, ""⟩ rq.redirectURI rq.state true, st)
  else
    match lookupKV st.users username with
    | none =>
      (.errorRedirect ⟨.accessDenied, ""⟩ rq.redirectURI rq.state true, st)
    | some owner =>
      if owner.secret ≠ password then
        (.errorRedirect ⟨.accessDenied, ""⟩ rq.redirectURI rq.state true, st)
      else
        let (r, st) := issueTokens cfg now gen st false rq.scope rq.clientID
          username ""
        (.tokenRedirect r rq.redirectURI rq.state, st)

end Server

namespace ExampleSrv

open OAuth2

/-- Type `example.owner`: a client or resource owner.  `secretHash` stands for the
stored bcrypt hash. -/
structure Owner where
  id : String
  secretHash : String
  redirectURI : String
  confidential : Bool
deriving DecidableEq, Repr

/-- Type `example.credential`. -/
structure Credential where
  clientID : String
  username : String
  signature : String
  expiresAt : Nat
  scope : List String
  redirectURI : String
deriving DecidableEq, Repr

/-- The example package's global maps. -/
structure ExState where
  clients : List (String × Owner)
  users : List (String × Owner)
  accessTokens : List (String × Credential)
  refreshTokens : List (String × Credential)
  authorizationCodes : List (String × Credential)
deriving DecidableEq, Repr

/-- The example package's configuration globals (lifespans in seconds,
allowed scope). -/
structure ExConfig where
  allowedScope : List String
  tokenLifespan : Nat
  refreshTokenLifespan : Nat
  authorizationCodeLifespan : Nat
deriving DecidableEq, Repr

/-- Function `example.sameHash` (bcrypt comparison): the credential verifier is an
external collaborator, abstracted to agreement between the stored verifier
and the presented secret. -/
def sameHash (hash presented : String) : Bool := hash == presented

/-- An `oauth2.TokenResponse` as built by the example package: the
`refresh_token` JSON field is present exactly when the string is
non-empty (`omitempty`). -/
structure TokenResponse where
  accessToken : String
  expiresIn : Nat
  scope : List String
  refreshToken : String
  state : String
deriving DecidableEq, Repr

/-- Outcome of an example token-endpoint handler. -/
inductive Result where
  | success (r : TokenResponse)
  | failure (e : OErr)
  | empty
deriving DecidableEq, Repr

/-- Whether a result is a token response. -/
def Result.isSuccess : Result → Bool
  | .success _ => true
  | _ => false

/-- Function `example.issueTokens`: both tokens are always generated, the response's
`RefreshToken` field is set unconditionally, and only afterwards is the
local refresh-token variable set to nil when `issueRefreshToken` is false —
which skips persisting it but leaves it in the response. -/
def issueTokens (cfg : ExConfig) (now : Nat) (gen : Gen) (st : ExState)
    (issueRefreshToken : Bool) (scope : List String)
    (state clientID username : String) : TokenResponse × ExState :=
  let res : TokenResponse :=
    { accessToken := gen.access.str
      expiresIn := cfg.tokenLifespan
      scope := scope
      refreshToken := gen.refresh.str
      state := state }
  let keepRefreshToken := issueRefreshToken
  let st :=
    { st with
      accessTokens :=
        insertKV st.accessTokens gen.access.sig
          ⟨clientID, username, gen.access.sig, now + cfg.tokenLifespan, scope,
            ""⟩ }
  let st :=
    if keepRefreshToken then
      { st with
        refreshTokens :=
          insertKV st.refreshTokens gen.refresh.sig
            ⟨clientID, username, gen.refresh.sig,
              now + cfg.refreshTokenLifespan, scope, ""⟩ }
    else st
  (res, st)

/-- Function `example.handleResourceOwnerPasswordCredentialsGrant`. -/
def handlePasswordGrant (cfg : ExConfig) (now : Nat) (gen : Gen)
    (st : ExState) (rq : Server.TokenRequest) : Result × ExState :=
  match lookupKV st.users rq.username with
  | none => (.failure ⟨.accessDenied, ""⟩, st)
  | some owner =>
    if !(sameHash owner.secretHash rq.password) then
      (.failure ⟨.accessDenied, ""⟩, st)
    else if !(sIncludes cfg.allowedScope rq.scope) then
      (.failure ⟨.invalidScope, ""⟩, st)
    else
      let (r, st) := issueTokens cfg now gen st true rq.scope "" rq.clientID
        rq.username
      (.success r, st)

/-- Function `example.handleClientCredentialsGrant`: scope check, then token
issuance.  There is no confidentiality check. -/
def handleClientCredentialsGrant (cfg : ExConfig) (now : Nat) (gen : Gen)
    (st : ExState) (rq : Server.TokenRequest) : Result × ExState :=
  if !(sIncludes cfg.allowedScope rq.scope) then
    (.failure ⟨.invalidScope, ""⟩, st)
  else
    let (r, st) := issueTokens cfg now gen st true rq.scope "" rq.clientID ""
    (.success r, st)

/-- Function `example.handleAuthorizationCodeGrant`: the code is deleted after its
first redemption (there is no used flag and no cascade revocation). -/
def handleAuthorizationCodeGrant (cfg : ExConfig) (now : Nat) (gen : Gen)
    (st : ExState) (rq : Server.TokenRequest) : Result × ExState :=
  match rq.codeSig with
  | none => (.failure ⟨.invalidRequest, "malformed token"⟩, st)
  | some sig =>
    match lookupKV st.authorizationCodes sig with
    | none => (.failure ⟨.invalidGrant, "Unknown authorization code"⟩, st)
    | some stored =>
      if stored.expiresAt < now then
        (.failure ⟨.invalidGrant, "Expired authorization code"⟩, st)
      else if stored.clientID ≠ rq.clientID then
        (.failure ⟨.invalidGrant, "Invalid authorization code ownership"⟩, st)
      else if stored.redirectURI ≠ rq.redirectURI then
        (.failure ⟨.invalidGrant, "Changed redirect uri"⟩, st)
      else
        let (r, st) := issueTokens cfg now gen st true stored.scope "" rq.clientID
          stored.username
        let st :=
          { st with authorizationCodes := eraseKV st.authorizationCodes sig }
        (.success r, st)

/-- Function `example.handleRefreshTokenGrant`. -/
def handleRefreshTokenGrant (cfg : ExConfig) (now : Nat) (gen : Gen)
    (st : ExState) (rq : Server.TokenRequest) : Result × ExState :=
  match rq.refreshSig with
  | none => (.failure ⟨.invalidRequest, "malformed token"⟩, st)
  | some sig =>
    match lookupKV st.refreshTokens sig with
    | none => (.failure ⟨.invalidGrant, "Unknown refresh token"⟩, st)
    | some stored =>
      if stored.expiresAt < now then
        (.failure ⟨.invalidGrant, "Expired refresh token"⟩, st)
      else if stored.clientID ≠ rq.clientID then
        (.failure ⟨.invalidGrant, "Invalid refresh token ownership"⟩, st)
      else
        let scope := if sEmpty rq.scope then stored.scope else rq.scope
        if !(sIncludes stored.scope scope) then
          (.failure ⟨.invalidScope, "Scope exceeds the originally granted scope"⟩,
            st)
        else
          let (r, st) := issueTokens cfg now gen st true scope "" rq.clientID
            stored.username
          let st := { st with refreshTokens := eraseKV st.refreshTokens sig }
          (.success r, st)

/-- Function `example.tokenEndpoint`: grant-type check, client lookup, secret check
for confidential clients, then dispatch. -/
def tokenEndpoint (cfg : ExConfig) (now : Nat) (gen : Gen) (st : ExState)
    (rq : Server.TokenRequest) : Result × ExState :=
  if !(knownGrantType rq.grantType) then
    (.failure ⟨.invalidRequest, "Unknown grant type"⟩, st)
  else
    match lookupKV st.clients rq.clientID with
    | none => (.failure ⟨.invalidClient, "Unknown client"⟩, st)
    | some client =>
      if client.confidential && !(sameHash client.secretHash rq.clientSecret) then
        (.failure ⟨.invalidClient, "Unknown client"⟩, st)
      else if rq.grantType == "password" then
        handlePasswordGrant cfg now gen st rq
      else if rq.grantType == "client_credentials" then
        handleClientCredentialsGrant cfg now gen st rq
      else if rq.grantType == "authorization_code" then
        handleAuthorizationCodeGrant cfg now gen st rq
      else if rq.grantType == "refresh_token" then
        handleRefreshTokenGrant cfg now gen st rq
      else (.empty, st)

/-- Outcome of an example authorization-endpoint grant handler. -/
inductive AuthResult where
  | tokenRedirect (r : TokenResponse) (uri : String)
  | errorRedirect (e : OErr) (uri state : String) (useFragment : Bool)
deriving DecidableEq, Repr

/-- Function `example.handleImplicitGrant`: scope check, resource-owner check, then
`issueTokens` with `issueRefreshToken = false`, delivered by fragment
redirect. -/
def handleImplicitGrant (cfg : ExConfig) (now : Nat) (gen : Gen)
    (st : ExState) (username password : String) (rq : Server.AuthRequest) :
    AuthResult × ExState :=
  if !(sIncludes cfg.allowedScope rq.scope) then
    (.errorRedirect ⟨.invalidScope, ""⟩ rq.redirectURI rq.state true, st)
  else
    match lookupKV st.users username with
    | none =>
      (.errorRedirect ⟨.accessDenied, ""⟩ rq.redirectURI rq.state true, st)
    | some owner =>
      if !(sameHash owner.secretHash password) then
        (.errorRedirect ⟨.accessDenied, ""⟩ rq.redirectURI rq.state true, st)
      else
        let (r, st) := issueTokens cfg now gen st false rq.scope rq.state
          rq.clientID owner.id
        (.tokenRedirect r rq.redirectURI, st)

end ExampleSrv

namespace Bearer

open OAuth2

/-- Type `bearer.Error`: an unsuccessful bearer-token authentication.  All string
fields are at character level because the challenge header is assembled from
them. -/
structure BError where
  name : Str
  description : Str
  uri : Str
  realm : Str
  scope : Str
  status : Nat
deriving DecidableEq, Repr

/-- Method `bearer.Error.Map`: the presentable fields, each included only when
non-empty.  The Go map is unordered; the listing order here is immaterial
because `Params` sorts. -/
def errMap (e : BError) : List (Str × Str) :=
  (if !e.name.isEmpty then [("error".data, e.name)] else []) ++
    (if !e.description.isEmpty then [("error_description".data, e.description)]
      else []) ++
    (if !e.uri.isEmpty then [("error_uri".data, e.uri)] else []) ++
    (if !e.realm.isEmpty then [("realm".data, e.realm)] else []) ++
    (if !e.scope.isEmpty then [("scope".data, e.scope)] else [])

/-- Go `fmt.Sprintf("%s=\"%s\"", k, v)`. -/
def fmtParam (kv : Str × Str) : Str :=
  kv.1 ++ '=' :: '"' :: (kv.2 ++ ['"'])

/-- Byte-lexicographic comparison of Go strings (UTF-8 byte order agrees
with code-point order). -/
def strLeB : Str → Str → Bool
  | [], _ => true
  | _ :: _, [] => false
  | a :: as, b :: bs =>
    if a.toNat < b.toNat then true
    else if b.toNat < a.toNat then false
    else strLeB as bs

/-- Go `sort.Strings` order as a relation, for `List.insertionSort`. -/
def StrLe (a b : Str) : Prop := strLeB a b = true

instance : DecidableRel StrLe := fun a b => by
  unfold StrLe; infer_instance

/-- Method `bearer.Error.Params`: format every map entry, sort the strings, join
with a comma and space. -/
def params (e : BError) : Str :=
  List.intercalate ", ".data (((errMap e).map fmtParam).insertionSort StrLe)

/-- A written HTTP response, reduced to the observables of
`bearer.WriteError`: the status code and the `WWW-Authenticate` header.
Neither branch writes a body (`w.Write(nil)`). -/
structure Resp where
  status : Nat
  wwwAuthenticate : Option Str
deriving DecidableEq, Repr

/-- Function `bearer.WriteError`: an error value that is not a `*bearer.Error`
(modelled as `none`) or one with status 500 degrades to a bare 500; any
other bearer error is written as a `Bearer` challenge with its parameters,
substituting `realm="OAuth2"` when no parameter applies, plus its status. -/
def writeError (e : Option BError) : Resp :=
  match e with
  | none => ⟨500, none⟩
  | some err =>
    if err.status == 500 then ⟨500, none⟩
    else
      let ps := params err
      let ps := if ps.isEmpty then "realm=\"OAuth2\"".data else ps
      ⟨err.status, some ("Bearer ".data ++ ps)⟩

end Bearer

namespace OAuth2

/-- Type `oauth2.AuthorizationRequest` from request.go. -/
structure AuthorizationRequest where
  responseType : String
  scope : List String
  clientID : String
  redirectURI : String
deriving DecidableEq, Repr

/-- Function `ParseAuthorizationRequest` from request.go: reject non-GET/POST
methods and malformed forms (`formOk` abstracts `req.ParseForm()`), then
return a nil request together with a nil error. -/
def parseAuthorizationRequest (method : String) (formOk : Bool) :
    Option AuthorizationRequest × Option OErr :=
  if method ≠ "GET" ∧ method ≠ "POST" then
    (none, some ⟨.invalidRequest, "Invalid HTTP method"⟩)
  else if !formOk then
    (none, some ⟨.invalidRequest, "Malformed query parameters or body form"⟩)
  else
    (none, none)

/-- The caller pattern of `authorizeEndpoint` (example/authorize_endpoint.go):
return early on a non-nil error, otherwise read `req.ResponseType` — a nil
dereference exactly when the returned request is nil. -/
def authorizeEndpointDerefsNil (method : String) (formOk : Bool) : Bool :=
  match parseAuthorizationRequest method formOk with
  | (req, none) => req.isNone
  | (_, some _) => false

end OAuth2

namespace OAuth2

theorem lookupKV_insert_self {α} (m : List (String × α)) (k : String) (v : α) :
    lookupKV (insertKV m k v) k = some v := by
  simp [lookupKV, insertKV, List.find?]

theorem lookupKV_erase_self {α} (m : List (String × α)) (k : String) :
    lookupKV (eraseKV m k) k = none := by
  simp only [lookupKV, eraseKV, Option.map_eq_none', List.find?_eq_none,
    List.mem_filter, bne_iff_ne, ne_eq]
  intro kv hmem
  simp only [beq_iff_eq]
  exact hmem.2

/-- Membership in a Go-map filter by parent code, used for cascade
revocation. -/
theorem mem_revoke_iff {α} (code : α → String) (m : List (String × α))
    (sig : String) (k : String) (v : α) :
    (k, v) ∈ m.filter (fun kv => code kv.2 != sig) ↔
      ((k, v) ∈ m ∧ code v ≠ sig) := by
  simp [List.mem_filter]

end OAuth2

open OAuth2

/-- C9: for every HTTP request whose method is GET or POST and whose form
data parses successfully, `ParseAuthorizationRequest` returns a nil request
and a nil error, so a caller that checks only the error and then reads the
request (as `authorizeEndpoint` does with `req.ResponseType`) dereferences
nil. -/
theorem c9_parse_authorization_request_nil (method : String) (formOk : Bool)
    (hm : method = "GET" ∨ method = "POST") (hf : formOk = true) :
    parseAuthorizationRequest method formOk = (none, none) ∧
      authorizeEndpointDerefsNil method formOk = true := by
  have hp : parseAuthorizationRequest method formOk = (none, none) := by
    rcases hm with hm | hm <;> subst hm <;> subst hf <;> rfl
  refine ⟨hp, ?_⟩
  simp [authorizeEndpointDerefsNil, hp]

theorem c9_parse_authorization_request_nil_witness :
    parseAuthorizationRequest "POST" true = (none, none) ∧
      authorizeEndpointDerefsNil "POST" true = true :=
  c9_parse_authorization_request_nil "POST" true (Or.inr rfl) rfl

/-- C7 counterexample: `ParseScope` does not deduplicate, so the scope
parsed from `"foo foo"` contains the token `foo` twice, violating the
claimed no-duplicate-tokens invariant. -/
theorem c7_counterexample_duplicate_tokens :
    parseScope "foo foo".data = ["foo".data, "foo".data] ∧
      ¬ (parseScope "foo foo".data).Nodup := by
  constructor
  · decide
  · decide

/-- C10 counterexample: for the non-empty scope whose single token is the
three characters `"a"`, `Scope.MarshalJSON` emits exactly those bytes,
which form a valid JSON string literal — refuting the claim that the
marshalled value of every non-empty scope is not a valid JSON string. -/
theorem c10_counterexample_quoted_token :
    marshalJSONScope [['"', 'a', '"']] = ['"', 'a', '"'] ∧
      isJSONStringLit (marshalJSONScope [['"', 'a', '"']]) = true := by
  constructor
  · decide
  · decide

/-- C10 (amended): `Scope.MarshalJSON` returns the space-joined token string
with no quotation marks added, and whenever that string does not itself
begin with a quotation mark — in particular for all ordinary scope tokens —
the marshalled value of a non-empty scope is not a valid JSON string. -/
theorem c10_marshal_json_unquoted (s : List Str) (_hne : s ≠ [])
    (hq : (joinSpace s).head? ≠ some '"') :
    marshalJSONScope s = joinSpace s ∧
      isJSONStringLit (marshalJSONScope s) = false := by
  refine ⟨rfl, ?_⟩
  show isJSONStringLit (joinSpace s) = false
  cases h : joinSpace s with
  | nil => rfl
  | cons c rest =>
    have hc : c ≠ '"' := by
      intro hceq
      exact hq (by simp [h, hceq])
    simp [isJSONStringLit, hc]

theorem c10_marshal_json_unquoted_witness :
    (["foo".data] : List Str) ≠ [] ∧
      (joinSpace ["foo".data]).head? ≠ some '"' ∧
      (marshalJSONScope ["foo".data] = joinSpace ["foo".data] ∧
        isJSONStringLit (marshalJSONScope ["foo".data]) = false) :=
  ⟨by decide, by decide,
    c10_marshal_json_unquoted ["foo".data] (by decide) (by decide)⟩

namespace OAuth2

theorem splitOnSpace_exists_cons (l : Str) :
    ∃ hd tl, splitOnSpace l = hd :: tl := by
  induction l with
  | nil => exact ⟨[], [], rfl⟩
  | cons c rest ih =>
    obtain ⟨hd, tl, hsplit⟩ := ih
    by_cases hc : c == ' '
    · exact ⟨[], splitOnSpace rest, by simp [splitOnSpace, hc]⟩
    · refine ⟨c :: hd, tl, ?_⟩
      simp only [splitOnSpace, hc, Bool.false_eq_true, if_false, hsplit]

theorem mem_splitOnSpace_no_space (l : Str) :
    ∀ t ∈ splitOnSpace l, ' ' ∉ t := by
  induction l with
  | nil =>
    intro t ht
    simp only [splitOnSpace, List.mem_singleton] at ht
    simp [ht]
  | cons c rest ih =>
    intro t ht
    by_cases hc : c == ' '
    · simp only [splitOnSpace, hc, if_true, List.mem_cons] at ht
      rcases ht with rfl | ht
      · simp
      · exact ih t ht
    · obtain ⟨hd, tl, hsplit⟩ := splitOnSpace_exists_cons rest
      simp only [splitOnSpace, hc, Bool.false_eq_true, if_false, hsplit,
        List.mem_cons] at ht
      rcases ht with rfl | ht
      · intro hsp
        rcases List.mem_cons.mp hsp with hce | hhd
        · exact hc (by simp [hce.symm])
        · exact ih hd (hsplit ▸ List.mem_cons_self hd tl) hhd
      · exact ih t (hsplit ▸ List.mem_cons_of_mem hd ht)

theorem splitOnSpace_append_space (x r : Str) (hx : ' ' ∉ x) :
    splitOnSpace (x ++ ' ' :: r) = x :: splitOnSpace r := by
  induction x with
  | nil => simp [splitOnSpace]
  | cons c x' ih =>
    have hc : (c == ' ') = false := by
      simp only [beq_eq_false_iff_ne, ne_eq]
      intro h
      exact hx (h ▸ List.mem_cons_self c x')
    have hx' : ' ' ∉ x' := fun h => hx (List.mem_cons_of_mem c h)
    simp only [List.cons_append, splitOnSpace, hc, Bool.false_eq_true,
      if_false, List.append_eq]
    rw [ih hx']

theorem splitOnSpace_no_space (x : Str) (hx : ' ' ∉ x) :
    splitOnSpace x = [x] := by
  induction x with
  | nil => rfl
  | cons c x' ih =>
    have hc : (c == ' ') = false := by
      simp only [beq_eq_false_iff_ne, ne_eq]
      intro h
      exact hx (h ▸ List.mem_cons_self c x')
    have hx' : ' ' ∉ x' := fun h => hx (List.mem_cons_of_mem c h)
    simp only [splitOnSpace, hc, Bool.false_eq_true, if_false, ih hx']

theorem splitOnSpace_joinSpace (xs : List Str) (hne : xs ≠ [])
    (h : ∀ x ∈ xs, ' ' ∉ x) :
    splitOnSpace (joinSpace xs) = xs := by
  induction xs with
  | nil => exact absurd rfl hne
  | cons x xs ih =>
    cases xs with
    | nil =>
      simp only [joinSpace]
      exact splitOnSpace_no_space x (h x (List.mem_cons_self x []))
    | cons y rest =>
      have hx : ' ' ∉ x := h x (List.mem_cons_self x (y :: rest))
      have hrest : ∀ z ∈ y :: rest, ' ' ∉ z := fun z hz =>
        h z (List.mem_cons_of_mem x hz)
      simp only [joinSpace, splitOnSpace_append_space x _ hx,
        ih (List.cons_ne_nil y rest) hrest]

theorem dropWhile_idem (p : α → Bool) (l : List α) :
    (l.dropWhile p).dropWhile p = l.dropWhile p := by
  cases h : l.dropWhile p with
  | nil => rfl
  | cons c r =>
    have hpc : p c = false := by
      have := List.head?_dropWhile_not p l
      rw [h] at this
      simpa using this
    simp [List.dropWhile_cons, hpc]

theorem trimLeft_idem (l : Str) : trimLeft (trimLeft l) = trimLeft l :=
  dropWhile_idem isSpaceChar l

theorem trimRight_idem (l : Str) : trimRight (trimRight l) = trimRight l := by
  simp only [trimRight, List.reverse_reverse, dropWhile_idem]

theorem exists_trimRight_append (l : Str) :
    ∃ q, trimRight l ++ q = l := by
  refine ⟨(l.reverse.takeWhile isSpaceChar).reverse, ?_⟩
  rw [trimRight, ← List.reverse_append, List.takeWhile_append_dropWhile,
    List.reverse_reverse]

theorem trimLeft_fixed_of_head (l : Str)
    (h : ∀ c, l.head? = some c → isSpaceChar c = false) :
    trimLeft l = l := by
  cases l with
  | nil => rfl
  | cons c r => simp [trimLeft, List.dropWhile_cons, h c rfl]

theorem head_not_space_of_trimLeft_fixed (l : Str) (hfix : trimLeft l = l) :
    ∀ c, l.head? = some c → isSpaceChar c = false := by
  intro c hc
  cases l with
  | nil => simp at hc
  | cons a r =>
    have hac : a = c := by simpa using hc
    subst hac
    by_contra hp
    have hp' : isSpaceChar a = true := by
      cases h : isSpaceChar a
      · exact absurd h hp
      · rfl
    have hdrop : trimLeft (a :: r) = trimLeft r := by
      simp [trimLeft, List.dropWhile_cons, hp']
    have hlen : (trimLeft r).length ≤ r.length :=
      (List.dropWhile_sublist isSpaceChar).length_le
    rw [hdrop] at hfix
    have : (a :: r).length ≤ r.length := hfix ▸ hlen
    simp at this

theorem trimLeft_trimRight_fixed (l : Str) (hfix : trimLeft l = l) :
    trimLeft (trimRight l) = trimRight l := by
  apply trimLeft_fixed_of_head
  intro c hc
  obtain ⟨q, hq⟩ := exists_trimRight_append l
  cases htr : trimRight l with
  | nil => rw [htr] at hc; simp at hc
  | cons a r =>
    have hac : a = c := by rw [htr] at hc; simpa using hc
    subst hac
    have hl : l = a :: (r ++ q) := by rw [← hq, htr, List.cons_append]
    have hhead : l.head? = some a := by rw [hl]; rfl
    exact head_not_space_of_trimLeft_fixed l hfix a hhead

theorem trimSpace_idem (l : Str) : trimSpace (trimSpace l) = trimSpace l := by
  have hfixL : trimLeft (trimRight (trimLeft l)) = trimRight (trimLeft l) :=
    trimLeft_trimRight_fixed (trimLeft l) (trimLeft_idem l)
  simp only [trimSpace, hfixL, trimRight_idem]

theorem mem_trimSpace (l : Str) : ∀ c ∈ trimSpace l, c ∈ l := by
  intro c hc
  have h1 : c ∈ (trimLeft l).reverse.dropWhile isSpaceChar := by
    simpa [trimSpace, trimRight] using hc
  have h2 : c ∈ (trimLeft l).reverse :=
    (List.dropWhile_sublist isSpaceChar).subset h1
  have h3 : c ∈ trimLeft l := by simpa using h2
  exact (List.dropWhile_sublist isSpaceChar).subset h3

theorem mem_parseScope (s : Str) :
    ∀ t ∈ parseScope s, ' ' ∉ t ∧ t ≠ [] ∧ trimSpace t = t := by
  intro t ht
  simp only [parseScope, List.mem_filter, List.mem_map] at ht
  obtain ⟨⟨u, hu, hut⟩, hne⟩ := ht
  have hnospace : ' ' ∉ t := by
    intro hsp
    have hsp2 : ' ' ∈ trimSpace u := by rw [hut]; exact hsp
    exact mem_splitOnSpace_no_space s u hu (mem_trimSpace u ' ' hsp2)
  refine ⟨hnospace, ?_, ?_⟩
  · intro hnil
    rw [hnil] at hne
    simp at hne
  · rw [← hut]
    exact trimSpace_idem u

theorem sContains_iff_mem {α} [DecidableEq α] (s : List α) (x : α) :
    sContains s x = true ↔ x ∈ s := by
  simp [sContains, List.any_eq_true, beq_iff_eq]

theorem sIncludes_iff_subset {α} [DecidableEq α] (s other : List α) :
    sIncludes s other = true ↔ ∀ x ∈ other, x ∈ s := by
  simp only [sIncludes, List.all_eq_true]
  constructor
  · intro h x hx; exact (sContains_iff_mem s x).mp (h x hx)
  · intro h x hx; exact (sContains_iff_mem s x).mpr (h x hx)

theorem sIncludes_refl {α} [DecidableEq α] (s : List α) :
    sIncludes s s = true :=
  (sIncludes_iff_subset s s).mpr (fun _ hx => hx)

end OAuth2

/-- C8: `ParseScope ∘ String ∘ ParseScope = ParseScope` — the canonical
serialization round-trips exactly (hence in particular up to ordering and
deduplication) — and `Scope.Includes` is reflexive and transitive. -/
theorem c8_roundtrip_includes_refl_trans :
    (∀ s : Str, parseScope (joinSpace (parseScope s)) = parseScope s) ∧
      (∀ s : List Str, sIncludes s s = true) ∧
      (∀ a b c : List Str, sIncludes a b = true → sIncludes b c = true →
        sIncludes a c = true) := by
  refine ⟨?_, fun s => sIncludes_refl s, ?_⟩
  · intro s
    cases hys : parseScope s with
    | nil => rfl
    | cons y ys =>
      have hmem := mem_parseScope s
      rw [hys] at hmem
      have hsplit : splitOnSpace (joinSpace (y :: ys)) = y :: ys :=
        splitOnSpace_joinSpace (y :: ys) (List.cons_ne_nil y ys)
          (fun x hx => (hmem x hx).1)
      have hmap : (y :: ys).map trimSpace = y :: ys :=
        List.map_congr_left (fun x hx => (hmem x hx).2.2) |>.trans
          (List.map_id (y :: ys))
      have hfilter :
          (y :: ys).filter (fun t => !t.isEmpty) = y :: ys := by
        rw [List.filter_eq_self]
        intro x hx
        simp [List.isEmpty_iff, (hmem x hx).2.1]
      calc parseScope (joinSpace (y :: ys))
          = ((splitOnSpace (joinSpace (y :: ys))).map trimSpace).filter
              (fun t => !t.isEmpty) := rfl
        _ = ((y :: ys).map trimSpace).filter (fun t => !t.isEmpty) := by
              rw [hsplit]
        _ = (y :: ys).filter (fun t => !t.isEmpty) := by rw [hmap]
        _ = y :: ys := hfilter
  · intro a b c hab hbc
    rw [sIncludes_iff_subset] at hab hbc ⊢
    exact fun x hx => hab x (hbc x hx)

theorem c8_roundtrip_includes_refl_trans_witness :
    parseScope (joinSpace (parseScope "  foo  bar foo ".data)) =
        parseScope "  foo  bar foo ".data ∧
      sIncludes ["foo".data] ["foo".data] = true ∧
      sIncludes ["foo".data, "bar".data] ["foo".data] = true :=
  ⟨c8_roundtrip_includes_refl_trans.1 "  foo  bar foo ".data,
    c8_roundtrip_includes_refl_trans.2.1 ["foo".data],
    c8_roundtrip_includes_refl_trans.2.2 ["foo".data, "bar".data]
      ["foo".data, "bar".data] ["foo".data] (by decide) (by decide)⟩

/-- C7 (amended): `ParseScope` splits on spaces, trims each item and drops
empty items — every parsed token is non-empty, space-free and
trim-invariant — but it does not deduplicate, so the parsed scope may
contain duplicate tokens. -/
theorem c7_parse_scope_items (s : Str) :
    ∀ t ∈ parseScope s, t ≠ [] ∧ ' ' ∉ t ∧ trimSpace t = t := by
  intro t ht
  obtain ⟨hsp, hne, hfix⟩ := mem_parseScope s t ht
  exact ⟨hne, hsp, hfix⟩

theorem c7_parse_scope_items_witness :
    "foo".data ∈ parseScope " foo  bar ".data ∧
      ("foo".data ≠ [] ∧ ' ' ∉ "foo".data ∧
        trimSpace "foo".data = "foo".data) :=
  ⟨by decide, c7_parse_scope_items " foo  bar ".data "foo".data (by decide)⟩

/-- C1: presenting an already-used authorization code to the
authorization_code grant fails with `invalid_grant` and deletes every
access-token and refresh-token credential whose parent-code field equals the
code's signature (leaving the code store untouched); a first redemption that
passes the expiry, ownership and redirect-URI checks succeeds and marks the
code used instead of deleting it. -/
theorem c1_code_replay_cascade_and_mark_used (cfg : Server.Config) (now : Nat)
    (gen : Gen) (st : Server.ServerState) (rq : Server.TokenRequest)
    (sig : String) (cred : Server.Credential)
    (hp : rq.codeSig = some sig)
    (hl : lookupKV st.authorizationCodes sig = some cred) :
    (cred.used = true →
      (Server.handleAuthorizationCodeGrant cfg now gen st rq).1 =
          .failure ⟨.invalidGrant, "unknown authorization code"⟩ ∧
        (∀ k c, (k, c) ∈
            (Server.handleAuthorizationCodeGrant cfg now gen st rq).2.accessTokens ↔
          ((k, c) ∈ st.accessTokens ∧ c.code ≠ sig)) ∧
        (∀ k c, (k, c) ∈
            (Server.handleAuthorizationCodeGrant cfg now gen st rq).2.refreshTokens ↔
          ((k, c) ∈ st.refreshTokens ∧ c.code ≠ sig)) ∧
        (Server.handleAuthorizationCodeGrant cfg now gen st rq).2.authorizationCodes =
          st.authorizationCodes) ∧
    (cred.used = false → ¬ cred.expiresAt < now →
      cred.clientID = rq.clientID → cred.redirectURI = rq.redirectURI →
      (Server.handleAuthorizationCodeGrant cfg now gen st rq).1.isSuccess = true ∧
        lookupKV (Server.handleAuthorizationCodeGrant cfg now gen st rq).2.authorizationCodes
            sig = some { cred with used := true }) := by
  constructor
  · intro hused
    simp only [Server.handleAuthorizationCodeGrant, hp, hl, hused, if_true]
    refine ⟨trivial, ?_, ?_, trivial⟩
    · intro k c
      exact mem_revoke_iff Server.Credential.code st.accessTokens sig k c
    · intro k c
      exact mem_revoke_iff Server.Credential.code st.refreshTokens sig k c
  · intro hused hexp hcl hred
    simp [Server.handleAuthorizationCodeGrant, hp, hl, hused, hexp, hcl,
      hred, Server.issueTokens, Server.Result.isSuccess,
      lookupKV_insert_self]

/-- An unknown (absent) refresh-token signature makes the refresh_token
grant fail immediately with `invalid_grant`, leaving the state unchanged. -/
theorem refresh_unknown_token (cfg : Server.Config) (now : Nat) (gen : Gen)
    (st : Server.ServerState) (rq : Server.TokenRequest) (sig : String)
    (hp : rq.refreshSig = some sig)
    (h : lookupKV st.refreshTokens sig = none) :
    Server.handleRefreshTokenGrant cfg now gen st rq =
      (.failure ⟨.invalidGrant, "unknown refresh token"⟩, st) := by
  simp only [Server.handleRefreshTokenGrant, hp, h]

/-- The successful refresh_token grant run, fully evaluated: the response
carries the fresh access token and the (possibly inherited) scope, and the
state gains the new credentials and loses the presented refresh token. -/
theorem refresh_success_run (cfg : Server.Config) (now : Nat) (gen : Gen)
    (st : Server.ServerState) (rq : Server.TokenRequest) (sig : String)
    (cred : Server.Credential)
    (hp : rq.refreshSig = some sig)
    (hl : lookupKV st.refreshTokens sig = some cred)
    (hexp : ¬ cred.expiresAt < now)
    (hown : cred.clientID = rq.clientID)
    (hinc : sIncludes cred.scope
      (if sEmpty rq.scope then cred.scope else rq.scope) = true) :
    Server.handleRefreshTokenGrant cfg now gen st rq =
      (.success
        { accessToken := gen.access.str
          expiresIn := cfg.accessTokenLifespan
          scope := if sEmpty rq.scope then cred.scope else rq.scope
          refreshToken := some gen.refresh.str },
        { st with
          accessTokens := insertKV st.accessTokens gen.access.sig
            ⟨rq.clientID, cred.username, now + cfg.accessTokenLifespan,
              if sEmpty rq.scope then cred.scope else rq.scope, "", "", false⟩
          refreshTokens := eraseKV
            (insertKV st.refreshTokens gen.refresh.sig
              ⟨rq.clientID, cred.username, now + cfg.refreshTokenLifespan,
                if sEmpty rq.scope then cred.scope else rq.scope, "", "",
                false⟩) sig }) := by
  simp only [Server.handleRefreshTokenGrant, hp, hl, hexp, if_false, hown,
    ne_eq, not_true_eq_false, hinc, Bool.not_true, Bool.false_eq_true,
    Server.issueTokens, if_true]

/-- C2: a refresh_token grant presenting a stored, unexpired refresh token
owned by the requesting client (with an admissible scope request) succeeds
with the freshly generated access token and deletes the presented refresh
token, so any later refresh_token grant presenting the same token string
(hence the same signature) fails with `invalid_grant` and leaves the state
unchanged. -/
theorem c2_refresh_token_rotation (cfg : Server.Config) (now : Nat)
    (gen : Gen) (st : Server.ServerState) (rq : Server.TokenRequest)
    (sig : String) (cred : Server.Credential)
    (hp : rq.refreshSig = some sig)
    (hl : lookupKV st.refreshTokens sig = some cred)
    (hexp : ¬ cred.expiresAt < now)
    (hown : cred.clientID = rq.clientID)
    (hscope : rq.scope = [] ∨ sIncludes cred.scope rq.scope = true) :
    (Server.handleRefreshTokenGrant cfg now gen st rq).1.getAccessToken =
        some gen.access.str ∧
      lookupKV (Server.handleRefreshTokenGrant cfg now gen st rq).2.refreshTokens
          sig = none ∧
      (∀ now2 gen2 (rq2 : Server.TokenRequest), rq2.refreshSig = some sig →
        Server.handleRefreshTokenGrant cfg now2 gen2
            (Server.handleRefreshTokenGrant cfg now gen st rq).2 rq2 =
          (.failure ⟨.invalidGrant, "unknown refresh token"⟩,
            (Server.handleRefreshTokenGrant cfg now gen st rq).2)) := by
  have hinc : sIncludes cred.scope
      (if sEmpty rq.scope then cred.scope else rq.scope) = true := by
    rcases hscope with hempty | hincl
    · simp [hempty, sEmpty, sIncludes_refl]
    · by_cases hsc : sEmpty rq.scope
      · simp [hsc, sIncludes_refl]
      · simp [hsc, hincl]
  have hrun := refresh_success_run cfg now gen st rq sig cred hp hl hexp
    hown hinc
  refine ⟨by rw [hrun]; rfl, ?_, ?_⟩
  · rw [hrun]
    exact lookupKV_erase_self _ sig
  · intro now2 gen2 rq2 hp2
    have hnone :
        lookupKV (Server.handleRefreshTokenGrant cfg now gen st rq).2.refreshTokens
          sig = none := by
      rw [hrun]
      exact lookupKV_erase_self _ sig
    exact refresh_unknown_token cfg now2 gen2 _ rq2 sig hp2 hnone

/-- C5: in the refresh_token grant, an empty requested scope inherits the
stored refresh token's scope into the response and the newly stored access
token; a non-empty requested scope not included in the stored scope fails
with `invalid_scope` and returns the store completely unchanged. -/
theorem c5_refresh_scope_inheritance_and_invalid_scope (cfg : Server.Config)
    (now : Nat) (gen : Gen) (st : Server.ServerState)
    (rq : Server.TokenRequest) (sig : String) (cred : Server.Credential)
    (hp : rq.refreshSig = some sig)
    (hl : lookupKV st.refreshTokens sig = some cred)
    (hexp : ¬ cred.expiresAt < now)
    (hown : cred.clientID = rq.clientID) :
    (rq.scope = [] →
      (Server.handleRefreshTokenGrant cfg now gen st rq).1.getScope =
          some cred.scope ∧
        (lookupKV (Server.handleRefreshTokenGrant cfg now gen st rq).2.accessTokens
            gen.access.sig).map Server.Credential.scope = some cred.scope) ∧
    (rq.scope ≠ [] → sIncludes cred.scope rq.scope = false →
      Server.handleRefreshTokenGrant cfg now gen st rq =
        (.failure ⟨.invalidScope, "scope exceeds the originally granted scope"⟩,
          st)) := by
  constructor
  · intro hempty
    have hemp : sEmpty rq.scope = true := by simp [sEmpty, hempty]
    have hinc : sIncludes cred.scope
        (if sEmpty rq.scope then cred.scope else rq.scope) = true := by
      simp [hemp, sIncludes_refl]
    have hrun := refresh_success_run cfg now gen st rq sig cred hp hl hexp
      hown hinc
    rw [hrun]
    constructor
    · simp [Server.Result.getScope, hemp]
    · simp [lookupKV_insert_self, hemp]
  · intro hne hninc
    have hemp : sEmpty rq.scope = false := by
      simp [sEmpty, List.isEmpty_iff, hne]
    have hcond : sIncludes cred.scope
        (if sEmpty rq.scope then cred.scope else rq.scope) = false := by
      simp [hemp, hninc]
    simp only [Server.handleRefreshTokenGrant, hp, hl, hexp, if_false, hown,
      ne_eq, not_true_eq_false, hcond, Bool.not_false, if_true]

namespace Fixture

/-- Concrete configuration for witness instances. -/
def cfg : Server.Config := ⟨["foo", "bar"], 3600, 604800, 600⟩

/-- Concrete generation oracle for witness instances. -/
def gen : Gen := ⟨⟨"AT1", "ATS1"⟩, ⟨"RT1", "RTS1"⟩⟩

/-- An authorization-code credential already marked used. -/
def usedCode : Server.Credential :=
  ⟨"c1", "u1", 1000, ["foo"], "http://cb", "", true⟩

/-- A fresh (unused) authorization-code credential. -/
def freshCode : Server.Credential :=
  ⟨"c1", "u1", 1000, ["foo"], "http://cb", "", false⟩

/-- An access token derived from the code with signature `CSIG`. -/
def derivedTok : Server.Credential :=
  ⟨"c1", "u1", 1000, ["foo"], "", "CSIG", false⟩

/-- Server state holding the used code and a token derived from it. -/
def stUsed : Server.ServerState :=
  ⟨[], [], [("A1", derivedTok)], [("R1", derivedTok)], [("CSIG", usedCode)]⟩

/-- Server state holding the fresh code. -/
def stFresh : Server.ServerState :=
  ⟨[], [], [], [], [("CSIG", freshCode)]⟩

/-- An authorization_code token request presenting `CSIG`. -/
def rqCode : Server.TokenRequest :=
  ⟨"authorization_code", [], "c1", "sec", "", "", some "CSIG", none,
    "http://cb"⟩

/-- A stored refresh-token credential. -/
def storedRefresh : Server.Credential :=
  ⟨"c1", "u1", 1000, ["foo"], "", "", false⟩

/-- Server state holding the stored refresh token. -/
def stRefresh : Server.ServerState :=
  ⟨[], [], [], [("RSIG", storedRefresh)], []⟩

/-- A refresh_token request presenting `RSIG` with no scope. -/
def rqRefresh : Server.TokenRequest :=
  ⟨"refresh_token", [], "c1", "sec", "", "", none, some "RSIG", ""⟩

/-- A refresh_token request presenting `RSIG` with an exceeding scope. -/
def rqRefreshBad : Server.TokenRequest :=
  ⟨"refresh_token", ["baz"], "c1", "sec", "", "", none, some "RSIG", ""⟩

end Fixture

theorem c1_code_replay_cascade_and_mark_used_witness :
    (Server.handleAuthorizationCodeGrant Fixture.cfg 1 Fixture.gen
          Fixture.stUsed Fixture.rqCode).1 =
        .failure ⟨.invalidGrant, "unknown authorization code"⟩ ∧
      (("A1", Fixture.derivedTok) ∈
          (Server.handleAuthorizationCodeGrant Fixture.cfg 1 Fixture.gen
            Fixture.stUsed Fixture.rqCode).2.accessTokens ↔
        (("A1", Fixture.derivedTok) ∈ Fixture.stUsed.accessTokens ∧
          Fixture.derivedTok.code ≠ "CSIG")) ∧
      (Server.handleAuthorizationCodeGrant Fixture.cfg 1 Fixture.gen
          Fixture.stFresh Fixture.rqCode).1.isSuccess = true ∧
      lookupKV (Server.handleAuthorizationCodeGrant Fixture.cfg 1 Fixture.gen
          Fixture.stFresh Fixture.rqCode).2.authorizationCodes "CSIG" =
        some { Fixture.freshCode with used := true } := by
  have hused := (c1_code_replay_cascade_and_mark_used Fixture.cfg 1
    Fixture.gen Fixture.stUsed Fixture.rqCode "CSIG" Fixture.usedCode rfl
    (by decide)).1 (by decide)
  have hfresh := (c1_code_replay_cascade_and_mark_used Fixture.cfg 1
    Fixture.gen Fixture.stFresh Fixture.rqCode "CSIG" Fixture.freshCode rfl
    (by decide)).2 (by decide) (by decide) (by decide) (by decide)
  exact ⟨hused.1, hused.2.1 "A1" Fixture.derivedTok, hfresh.1, hfresh.2⟩

theorem c2_refresh_token_rotation_witness :
    (Server.handleRefreshTokenGrant Fixture.cfg 1 Fixture.gen
          Fixture.stRefresh Fixture.rqRefresh).1.getAccessToken =
        some "AT1" ∧
      lookupKV (Server.handleRefreshTokenGrant Fixture.cfg 1 Fixture.gen
          Fixture.stRefresh Fixture.rqRefresh).2.refreshTokens "RSIG" =
        none ∧
      Server.handleRefreshTokenGrant Fixture.cfg 2 Fixture.gen
          (Server.handleRefreshTokenGrant Fixture.cfg 1 Fixture.gen
            Fixture.stRefresh Fixture.rqRefresh).2 Fixture.rqRefresh =
        (.failure ⟨.invalidGrant, "unknown refresh token"⟩,
          (Server.handleRefreshTokenGrant Fixture.cfg 1 Fixture.gen
            Fixture.stRefresh Fixture.rqRefresh).2) := by
  have h := c2_refresh_token_rotation Fixture.cfg 1 Fixture.gen
    Fixture.stRefresh Fixture.rqRefresh "RSIG" Fixture.storedRefresh rfl
    (by decide) (by decide) (by decide) (Or.inl rfl)
  exact ⟨h.1, h.2.1, h.2.2 2 Fixture.gen Fixture.rqRefresh rfl⟩

theorem c5_refresh_scope_inheritance_and_invalid_scope_witness :
    ((Server.handleRefreshTokenGrant Fixture.cfg 1 Fixture.gen
          Fixture.stRefresh Fixture.rqRefresh).1.getScope =
        some Fixture.storedRefresh.scope ∧
      (lookupKV (Server.handleRefreshTokenGrant Fixture.cfg 1 Fixture.gen
          Fixture.stRefresh Fixture.rqRefresh).2.accessTokens
          "ATS1").map Server.Credential.scope =
        some Fixture.storedRefresh.scope) ∧
      Server.handleRefreshTokenGrant Fixture.cfg 1 Fixture.gen
          Fixture.stRefresh Fixture.rqRefreshBad =
        (.failure ⟨.invalidScope, "scope exceeds the originally granted scope"⟩,
          Fixture.stRefresh) := by
  have hempty := (c5_refresh_scope_inheritance_and_invalid_scope Fixture.cfg
    1 Fixture.gen Fixture.stRefresh Fixture.rqRefresh "RSIG"
    Fixture.storedRefresh rfl (by decide) (by decide) (by decide)).1 rfl
  have hbad := (c5_refresh_scope_inheritance_and_invalid_scope Fixture.cfg
    1 Fixture.gen Fixture.stRefresh Fixture.rqRefreshBad "RSIG"
    Fixture.storedRefresh rfl (by decide) (by decide) (by decide)).2
    (by decide) (by decide)
  exact ⟨hempty, hbad⟩

namespace Server

/-- The refresh-token field of a redirect-delivered token response. -/
def AuthResult.getRefreshToken : AuthResult → Option (Option String)
  | .tokenRedirect r _ _ => some r.refreshToken
  | _ => none

end Server

namespace ExampleSrv

/-- The refresh-token field of a redirect-delivered token response. -/
def AuthResult.getRefreshToken : AuthResult → Option String
  | .tokenRedirect r _ => some r.refreshToken
  | _ => none

end ExampleSrv

namespace Fixture

/-- Concrete example-package configuration. -/
def exCfg : ExampleSrv.ExConfig := ⟨["foo", "bar"], 3600, 604800, 600⟩

/-- A resource owner with a known verifier. -/
def owner1 : ExampleSrv.Owner := ⟨"u1", "pw", "", false⟩

/-- Example state containing only the resource owner. -/
def exStUsers : ExampleSrv.ExState := ⟨[], [("u1", owner1)], [], [], []⟩

/-- A public (non-confidential) example client. -/
def pubClient : ExampleSrv.Owner := ⟨"c2", "", "http://cb", false⟩

/-- Example state containing only the public client. -/
def exStPub : ExampleSrv.ExState := ⟨[("c2", pubClient)], [], [], [], []⟩

/-- An implicit-grant authorization request. -/
def rqImplicit : Server.AuthRequest :=
  ⟨"token", ["foo"], "c1", "http://cb", "xyz"⟩

/-- A server-package resource owner. -/
def srvOwner : Server.Entity := ⟨"pw", "", false⟩

/-- Server state containing only the resource owner. -/
def srvStUsers : Server.ServerState := ⟨[], [("u1", srvOwner)], [], [], []⟩

/-- A public (non-confidential) server client. -/
def srvPubClient : Server.Entity := ⟨"", "http://cb", false⟩

/-- Server state containing only the public client. -/
def srvStPub : Server.ServerState := ⟨[("c2", srvPubClient)], [], [], [], []⟩

/-- A client_credentials token request from the public client. -/
def rqCC : Server.TokenRequest :=
  ⟨"client_credentials", ["foo"], "c2", "", "", "", none, none, ""⟩

end Fixture

/-- C3: a successful implicit grant against the example package's
authorization endpoint returns a token response whose refresh-token field
carries the freshly generated (unstored) refresh-token string — the shared
`issueTokens` helper sets the response field before discarding the token —
while the server package's `issueTokens`, called by its implicit-grant
handler with `issueRefreshToken = false`, leaves the response's
refresh-token field empty as the claim demands. -/
theorem c3_example_implicit_grant_leaks_refresh_token :
    (ExampleSrv.handleImplicitGrant Fixture.exCfg 1 Fixture.gen
          Fixture.exStUsers "u1" "pw" Fixture.rqImplicit).1.getRefreshToken =
        some "RT1" ∧
      ("RT1" : String) ≠ "" ∧
      lookupKV (ExampleSrv.handleImplicitGrant Fixture.exCfg 1 Fixture.gen
          Fixture.exStUsers "u1" "pw" Fixture.rqImplicit).2.refreshTokens
        "RTS1" = none ∧
      (Server.handleImplicitGrant Fixture.cfg 1 Fixture.gen
          Fixture.srvStUsers "u1" "pw" Fixture.rqImplicit).1.getRefreshToken =
        some none := by
  refine ⟨by decide, by decide, by decide, by decide⟩

/-- C4: a client_credentials token request from a public
(non-confidential) client is answered by the example package's token
endpoint with freshly issued tokens — it performs no confidentiality
check — whereas the server package's token endpoint rejects the same
request with `invalid_client`, as the claim demands. -/
theorem c4_example_client_credentials_public_client :
    (ExampleSrv.tokenEndpoint Fixture.exCfg 1 Fixture.gen Fixture.exStPub
          Fixture.rqCC).1.isSuccess = true ∧
      (Server.tokenEndpoint Fixture.cfg 1 Fixture.gen Fixture.srvStPub
          Fixture.rqCC).1 = .failure ⟨.invalidClient, "unknown client"⟩ ∧
      (Server.tokenEndpoint Fixture.cfg 1 Fixture.gen Fixture.srvStPub
          Fixture.rqCC).2 = Fixture.srvStPub := by
  refine ⟨by decide, by decide, by decide⟩

namespace Bearer

open OAuth2

theorem strLeB_total (a b : Str) : strLeB a b = true ∨ strLeB b a = true := by
  induction a generalizing b with
  | nil => left; rfl
  | cons x xs ih =>
    cases b with
    | nil => right; rfl
    | cons y ys =>
      by_cases h1 : x.toNat < y.toNat
      · left; simp [strLeB, h1]
      · by_cases h2 : y.toNat < x.toNat
        · right; simp [strLeB, h2]
        · rcases ih ys with h | h
          · left; simp [strLeB, h1, h2, h]
          · right; simp [strLeB, h1, h2, h]

theorem strLeB_trans (a b c : Str) (hab : strLeB a b = true)
    (hbc : strLeB b c = true) : strLeB a c = true := by
  induction a generalizing b c with
  | nil => rfl
  | cons x xs ih =>
    cases b with
    | nil => simp [strLeB] at hab
    | cons y ys =>
      cases c with
      | nil => simp [strLeB] at hbc
      | cons z zs =>
        simp only [strLeB] at hab hbc ⊢
        split_ifs at hab hbc ⊢ <;>
          first
            | rfl
            | (exfalso; omega)
            | exact ih ys zs hab hbc

instance : IsTotal Str StrLe := ⟨fun a b => strLeB_total a b⟩

instance : IsTrans Str StrLe := ⟨fun a b c => strLeB_trans a b c⟩

theorem fmtParam_ne_nil (kv : Str × Str) : fmtParam kv ≠ [] := by
  simp [fmtParam]

theorem intercalate_ne_nil_of_head_ne_nil (sep x : Str) (xs : List Str)
    (hx : x ≠ []) : List.intercalate sep (x :: xs) ≠ [] := by
  cases xs with
  | nil => simpa [List.intercalate] using hx
  | cons y r => simp [List.intercalate, hx]

theorem params_eq_nil_of_errMap_eq_nil (err : BError) (h : errMap err = []) :
    params err = [] := by
  simp [params, h, List.intercalate]

theorem params_ne_nil_of_errMap_ne_nil (err : BError)
    (h : errMap err ≠ []) : params err ≠ [] := by
  unfold params
  cases hs : ((errMap err).map fmtParam).insertionSort StrLe with
  | nil =>
    exfalso
    have hperm := List.perm_insertionSort StrLe ((errMap err).map fmtParam)
    rw [hs] at hperm
    have hmapnil : (errMap err).map fmtParam = [] := hperm.symm.eq_nil
    exact h (List.map_eq_nil_iff.mp hmapnil)
  | cons x xs =>
    have hxmem : x ∈ ((errMap err).map fmtParam).insertionSort StrLe := by
      rw [hs]; exact List.mem_cons_self x xs
    rw [List.mem_insertionSort] at hxmem
    obtain ⟨kv, _, hkv⟩ := List.mem_map.mp hxmem
    exact intercalate_ne_nil_of_head_ne_nil _ x xs (hkv ▸ fmtParam_ne_nil kv)

end Bearer

/-- C6: writing a bearer error produces the error's status code together
with a `WWW-Authenticate: Bearer` challenge whose parameters are the
quoted `key="value"` renderings of the error's present fields, sorted, with
`realm="OAuth2"` substituted when no parameter applies; a non-bearer error
value, or a bearer error with status 500, instead produces a bare 500 with
no challenge header. -/
theorem c6_bearer_write_error_challenge (e : Option Bearer.BError) :
    (e = none → Bearer.writeError e = ⟨500, none⟩) ∧
      (∀ err, e = some err → err.status = 500 →
        Bearer.writeError e = ⟨500, none⟩) ∧
      (∀ err, e = some err → err.status ≠ 500 →
        (Bearer.writeError e).status = err.status ∧
          ∃ ps : List Str,
            (Bearer.writeError e).wwwAuthenticate =
              some ("Bearer ".data ++ List.intercalate ", ".data ps) ∧
            ps.Sorted Bearer.StrLe ∧
            ((Bearer.errMap err ≠ [] ∧
                ps.Perm ((Bearer.errMap err).map Bearer.fmtParam)) ∨
              (Bearer.errMap err = [] ∧ ps = ["realm=\"OAuth2\"".data]))) := by
  refine ⟨?_, ?_, ?_⟩
  · intro he; subst he; rfl
  · intro err he h5; subst he
    simp [Bearer.writeError, h5]
  · intro err he hne; subst he
    have hbeq : (err.status == 500) = false := by
      simpa using hne
    by_cases hmap : Bearer.errMap err = []
    · have hps : Bearer.params err = [] :=
        Bearer.params_eq_nil_of_errMap_eq_nil err hmap
      constructor
      · simp [Bearer.writeError, hbeq, hps]
      · refine ⟨["realm=\"OAuth2\"".data], ?_, ?_, ?_⟩
        · simp [Bearer.writeError, hbeq, hps, List.intercalate]
        · exact List.sorted_singleton _
        · exact Or.inr ⟨hmap, rfl⟩
    · have hps : Bearer.params err ≠ [] :=
        Bearer.params_ne_nil_of_errMap_ne_nil err hmap
      have hps' : (Bearer.params err).isEmpty = false := by
        simp [List.isEmpty_iff, hps]
      constructor
      · simp [Bearer.writeError, hbeq, hps']
      · refine ⟨((Bearer.errMap err).map Bearer.fmtParam).insertionSort
          Bearer.StrLe, ?_, ?_, ?_⟩
        · simp [Bearer.writeError, hbeq, hps', Bearer.params]
          intro h
          exact absurd h (by simpa [Bearer.params] using hps)
        · exact List.sorted_insertionSort _ _
        · exact Or.inl ⟨hmap, List.perm_insertionSort _ _⟩

namespace Fixture

/-- A bearer invalid_token error with a description (status 401). -/
def bearerErr : Bearer.BError :=
  ⟨"invalid_token".data, "expired token".data, [], [], [], 401⟩

/-- The bearer ServerError (status 500, no fields). -/
def bearerErr500 : Bearer.BError := ⟨[], [], [], [], [], 500⟩

end Fixture

theorem c6_bearer_write_error_challenge_witness :
    Bearer.writeError none = ⟨500, none⟩ ∧
      Bearer.writeError (some Fixture.bearerErr500) = ⟨500, none⟩ ∧
      ((Bearer.writeError (some Fixture.bearerErr)).status =
          Fixture.bearerErr.status ∧
        ∃ ps : List Str,
          (Bearer.writeError (some Fixture.bearerErr)).wwwAuthenticate =
            some ("Bearer ".data ++ List.intercalate ", ".data ps) ∧
          ps.Sorted Bearer.StrLe ∧
          ((Bearer.errMap Fixture.bearerErr ≠ [] ∧
              ps.Perm ((Bearer.errMap Fixture.bearerErr).map Bearer.fmtParam)) ∨
            (Bearer.errMap Fixture.bearerErr = [] ∧
              ps = ["realm=\"OAuth2\"".data]))) :=
  ⟨(c6_bearer_write_error_challenge none).1 rfl,
    (c6_bearer_write_error_challenge (some Fixture.bearerErr500)).2.1
      Fixture.bearerErr500 rfl rfl,
    (c6_bearer_write_error_challenge (some Fixture.bearerErr)).2.2
      Fixture.bearerErr rfl (by decide)⟩

